import Mathlib

/-!
Shallow embedding of the block-device discovery library.

The repository has two near-identical Go packages:
* `block` (source file `part_000`): `Device {Name, Size, Type}`, `NewDevice`,
  `discoverDeviceType`, `exists`, `ListDevices`, `NewDevicesFromPaths`;
* `blockdevice` (`disk.go`, `diskslice.go`, `id.go`): `Disk {Name, Size}`,
  `NewDisk`, `DiskSlice` with `sort.Interface` (`Less` compares `Size`),
  `String`/`StringSlice`, and `GetAttributes` which parses `blkid -o export`
  output.

The sysfs tree is modelled per device name: an entry records the outcome of
`os.Stat` on `/sys/block/<name>` itself, the outcome of reading the `size`
child file, and the `os.Stat` outcomes of the three marker children
`md`, `dm`, `device`.  Machine integers are `Nat` with an explicit `% 2 ^ 64`
where Go's `uint64` arithmetic can wrap.
-/

/-- Outcome of `os.Stat` on one path: success, a not-exist error
(`os.IsNotExist err = true`), or any other error. -/
inductive Stat where
  | ok : Stat
  | notExist : Stat
  | err : Stat
deriving DecidableEq

/-- One device's sysfs entry `/sys/block/<name>`: the stat outcome of the
entry itself, the result of `ioutil.ReadFile` on the `size` child
(`none` means the read failed), and the stat outcomes of the three marker
children `md`, `dm` and `device`. -/
structure Entry where
  stat : Stat
  sizeFile : Option String
  md : Stat
  dm : Stat
  device : Stat
deriving DecidableEq

/-- The sysfs block tree, keyed by base device name.  A name with no metadata
entry maps to an entry whose `stat` is `notExist`. -/
abbrev Sysfs := String → Entry

/-- Error model for the library, following the spec taxonomy (§7).  `wrap`
models `errors.Wrap(err, msg)` from github.com/pkg/errors: it adds a message
and keeps the cause. -/
inductive Err where
  | notFound : String → Err
  | ioError : String → Err
  | parseError : String → Err
  | wrap : String → Err → Err
deriving DecidableEq

/-- Go `path.Base`: returns the last element of the path after stripping
trailing slashes; `""` gives `"."`, an all-slash path gives `"/"`. -/
def pathBase (p : String) : String :=
  if p = "" then "."
  else
    let r := p.toList.reverse.dropWhile (fun c => c == '/')
    let e := r.takeWhile (fun c => c != '/')
    if e = [] then "/" else String.mk e.reverse

/-- Value of a decimal digit string, most significant digit first. -/
def digitsToNat (l : List Char) : Nat :=
  l.foldl (fun acc c => acc * 10 + (c.toNat - 48)) 0

/-- Go `strconv.ParseUint(s, 10, 64)` as used by the sources: a non-empty
all-digit decimal string whose value fits in 64 bits; anything else (empty
string, sign, non-digit, out of range) is an error, modelled as `none`. -/
def ParseUint (s : String) : Option Nat :=
  if s.toList = [] then none
  else if s.toList.all (fun c => c.isDigit) then
    let v := digitsToNat s.toList
    if v < 2 ^ 64 then some v else none
  else none

/-- Go `strings.Trim(s, "\n")`: remove all leading and trailing newline
characters. -/
def trimNewlines (s : String) : String :=
  String.mk (((s.toList.dropWhile (fun c => c == '\n')).reverse.dropWhile
    (fun c => c == '\n')).reverse)

namespace Block

/-- The Go `Type` enumeration of package `block` (`Type` is reserved in Lean,
hence `DevType`); constructors keep the Go constant names. -/
inductive DevType where
  | TypeUnknown : DevType
  | TypeDisk : DevType
  | TypeRAID : DevType
  | TypeDeviceMapper : DevType
deriving DecidableEq

/-- Go `Device` of package `block`: `Name string; Size uint64; Type Type`
(the field `Type` is reserved in Lean, hence `Typ`). -/
structure Device where
  Name : String
  Size : Nat
  Typ : DevType
deriving DecidableEq

/-- Go `exists(path)`: stat succeeded gives `(true, nil)`, a not-exist error
gives `(false, nil)`, any other error gives `(true, err)` — the caller checks
the error first, so the error outcome is modelled as `Except.error`. -/
def exists_ : Stat → Except Unit Bool
  | .ok => .ok true
  | .notExist => .ok false
  | .err => .error ()

/-- Go `discoverDeviceType(sysfsPath)`: check the `md`, `dm`, `device` marker
children in that order; an `exists` error at any step aborts with an error
(the code's fresh `errors.Errorf` is an existence-could-not-be-determined
I/O failure, `Err.ioError` in the spec taxonomy). -/
def discoverDeviceType (sysfsPath : String) (e : Entry) : Except Err DevType :=
  match exists_ e.md with
  | .error _ => .error (.ioError ("failed to discover device type for " ++ sysfsPath))
  | .ok mdPathExists =>
    if mdPathExists then .ok .TypeRAID
    else
      match exists_ e.dm with
      | .error _ => .error (.ioError ("failed to discover device type for " ++ sysfsPath))
      | .ok dmPathExists =>
        if dmPathExists then .ok .TypeDeviceMapper
        else
          match exists_ e.device with
          | .error _ => .error (.ioError ("failed to discover device type for " ++ sysfsPath))
          | .ok devicePathExists =>
            if devicePathExists then .ok .TypeDisk
            else .ok .TypeUnknown

/-- Go `NewDevice(devicePath)`: take the base name, fail with the
does-not-exist error if the sysfs entry's stat is a not-exist error, read and
parse `size`, multiply by 512 in `uint64` arithmetic, then discover the type
(the code wraps a type-discovery failure with the copy-pasted message
"failed to parse device size"). -/
def NewDevice (fs : Sysfs) (devicePath : String) : Except Err Device :=
  let name := pathBase devicePath
  let sysfsPath := "/sys/block/" ++ name
  let e := fs name
  if e.stat = .notExist then
    .error (.notFound ("device " ++ sysfsPath ++ " does not exist"))
  else
    match e.sizeFile with
    | none => .error (.wrap "failed to read size" (.ioError sysfsPath))
    | some sizeContent =>
      match ParseUint (trimNewlines sizeContent) with
      | none => .error (.parseError "failed to parse device size")
      | some size =>
        match discoverDeviceType sysfsPath e with
        | .error e2 => .error (.wrap "failed to parse device size" e2)
        | .ok typ => .ok ⟨name, size * 512 % 2 ^ 64, typ⟩

/-- Go `NewDevicesFromPaths(paths)`: construct a `Device` for each path in
order; the first failure aborts the whole call wrapped with
"failed to create disk". -/
def NewDevicesFromPaths (fs : Sysfs) : List String → Except Err (List Device)
  | [] => .ok []
  | p :: ps =>
    match NewDevice fs p with
    | .error e => .error (.wrap "failed to create disk" e)
    | .ok d =>
      match NewDevicesFromPaths fs ps with
      | .error e => .error e
      | .ok ds => .ok (d :: ds)

end Block

namespace Blockdevice

/-- Go `Disk` of package `blockdevice`: `Name string; Size uint64`. -/
structure Disk where
  Name : String
  Size : Nat
deriving DecidableEq

/-- Go `NewDisk(diskPath)`: identical to `block.NewDevice` except that no
type discovery is performed. -/
def NewDisk (fs : Sysfs) (diskPath : String) : Except Err Disk :=
  let name := pathBase diskPath
  let sysfsName := "/sys/block/" ++ name
  let e := fs name
  if e.stat = .notExist then
    .error (.notFound ("device " ++ sysfsName ++ " does not exist"))
  else
    match e.sizeFile with
    | none => .error (.wrap "failed to read size" (.ioError sysfsName))
    | some sizeContent =>
      match ParseUint (trimNewlines sizeContent) with
      | none => .error (.parseError "failed to parse device size")
      | some size => .ok ⟨name, size * 512 % 2 ^ 64⟩

/-- Go `(d *Disk) DeviceName()`: the canonical device-node path. -/
def Disk.DeviceName (d : Disk) : String := "/dev/" ++ d.Name

/-- Go `NewDiskSliceFromPaths(paths)`: one `Disk` per path in order; the
first failure aborts the whole call wrapped with "failed to create disk". -/
def NewDiskSliceFromPaths (fs : Sysfs) : List String → Except Err (List Disk)
  | [] => .ok []
  | p :: ps =>
    match NewDisk fs p with
    | .error e => .error (.wrap "failed to create disk" e)
    | .ok d =>
      match NewDiskSliceFromPaths fs ps with
      | .error e => .error e
      | .ok ds => .ok (d :: ds)

/-- Go `DiskSlice.Less(i, j)` from `sort.Interface`:
`ds[i].Size < ds[j].Size`, expressed element-wise. -/
def DiskSlice.Less (a b : Disk) : Prop := a.Size < b.Size

instance : DecidableRel DiskSlice.Less :=
  fun a b => inferInstanceAs (Decidable (a.Size < b.Size))

/-- Modelled from the spec: the repository supplies only the comparator
(`DiskSlice.Less` via `sort.Interface`); the sort routine applied to it is a
caller's and is not in the source tree.  The spec requires the
ascending-by-size view to be a stable sort by that comparator, modelled here
as insertion sort with respect to the negation of `DiskSlice.Less` reversed
(i.e. `a` may stay before `b` unless `b` must come strictly earlier). -/
def sortBySize (ds : List Disk) : List Disk :=
  ds.insertionSort (fun a b => ¬ DiskSlice.Less b a)

/-- Go `Attributes` of `id.go`: `UUID, Type, Label string` (the field `Type`
is reserved in Lean, hence `Typ`).  Go strings default to `""`. -/
structure Attributes where
  UUID : String
  Typ : String
  Label : String
deriving DecidableEq

/-- Go `strings.SplitN(line, "=", 2)` restricted to what the caller uses:
`some (before, after)` around the first `'='`, or `none` when the line has no
`'='` — in that case `kv` has a single element and the Go code's `kv[1]`
panics with an index-out-of-range runtime error. -/
def splitFirstEq : List Char → Option (List Char × List Char)
  | [] => none
  | c :: rest =>
    if c = '=' then some ([], rest)
    else
      match splitFirstEq rest with
      | none => none
      | some (k, v) => some (c :: k, v)

/-- One iteration of the `GetAttributes` parsing loop: skip an empty line,
panic (`none`) on a line with no `'='`, otherwise update the field selected
by the key (`UUID`, `LABEL`, `TYPE`), ignoring any other key. -/
def processLine (a : Attributes) (line : String) : Option Attributes :=
  if line = "" then some a
  else
    match splitFirstEq line.toList with
    | none => none
    | some (k, v) =>
      let key := String.mk k
      let value := String.mk v
      some (if key = "UUID" then { a with UUID := value }
            else if key = "LABEL" then { a with Label := value }
            else if key = "TYPE" then { a with Typ := value }
            else a)

/-- The `GetAttributes` parsing loop over a list of lines, starting from a
given record; `none` models a Go panic aborting the whole call. -/
def foldAttrs : Attributes → List String → Option Attributes
  | a, [] => some a
  | a, l :: ls =>
    match processLine a l with
    | none => none
    | some a2 => foldAttrs a2 ls

/-- Go `GetAttributes` restricted to its parsing of the captured `blkid`
output (the process invocation itself is an I/O boundary): split on newlines
and run the loop from the zero-valued record. -/
def GetAttributesLines (ls : List String) : Option Attributes :=
  foldAttrs ⟨"", "", ""⟩ ls

/-- Go `strings.Split(s, "\n")`: the pieces of the string around every
newline, empty pieces included (splitting the empty string gives `[""]`). -/
def splitLines : List Char → List String
  | [] => [""]
  | c :: rest =>
    let r := splitLines rest
    if c = '\n' then "" :: r
    else
      match r with
      | [] => [String.mk [c]]
      | h :: t => String.mk (c :: h.toList) :: t

/-- `GetAttributes` parsing applied to the raw output string, split on
`'\n'` exactly as `strings.Split(string(output), "\n")` does. -/
def GetAttributesFromOutput (output : String) : Option Attributes :=
  GetAttributesLines (splitLines output.toList)

/-- Specification-side reading of one line for one key: a `key=value` line
replaces the accumulator with its value, any other line keeps it. -/
def lvStep (key : String) (acc : Option String) (l : String) : Option String :=
  match splitFirstEq l.toList with
  | some (k, v) => if String.mk k = key then some (String.mk v) else acc
  | none => acc

/-- Specification-side reading of the loop: the value of the last line whose
key (text before the first `'='`) is `key`, threading an initial accumulator
the way a left fold does. -/
def lastValueFrom (key : String) (init : Option String) (ls : List String) : Option String :=
  ls.foldl (lvStep key) init

/-- The value of the last `key=value` line for `key`, if any. -/
def lastValueOf (key : String) (ls : List String) : Option String :=
  lastValueFrom key none ls

/-- The final content of one field whose recognized key is `key`: the value
of the last line bearing that key, or the default when no line does. -/
def specField (key dflt : String) (ls : List String) : String :=
  match lastValueOf key ls with
  | some v => v
  | none => dflt

/-- Well-formed tool output, as a list of lines: every non-empty line
contains a `'='` separator. -/
def WFLines (ls : List String) : Prop :=
  ∀ l ∈ ls, l = "" ∨ '=' ∈ l.toList

instance : DecidablePred WFLines := fun ls =>
  inferInstanceAs (Decidable (∀ l ∈ ls, l = "" ∨ '=' ∈ l.toList))

end Blockdevice

deriving instance DecidableEq for Except

/-! Concrete sysfs trees used to instantiate theorems with hypotheses. -/

/-- A tree with no entries at all. -/
def fsEmpty : Sysfs := fun _ => ⟨.notExist, none, .notExist, .notExist, .notExist⟩

/-- A tree with a single plain disk `sda` of 2 sectors (and a `device`
marker), every other name missing. -/
def fsDisk : Sysfs := fun n =>
  if n = "sda" then ⟨.ok, some "2\n", .notExist, .notExist, .ok⟩
  else ⟨.notExist, none, .notExist, .notExist, .notExist⟩

/-- A tree with a single zero-sector disk `sda`. -/
def fsZero : Sysfs := fun n =>
  if n = "sda" then ⟨.ok, some "0\n", .notExist, .notExist, .ok⟩
  else ⟨.notExist, none, .notExist, .notExist, .notExist⟩

/-- A tree whose device `sda` declares 2^55 sectors: the size text parses as
a valid 64-bit integer but the byte count overflows `uint64`. -/
def fsOverflow : Sysfs := fun n =>
  if n = "sda" then ⟨.ok, some "36028797018963968\n", .notExist, .notExist, .ok⟩
  else ⟨.notExist, none, .notExist, .notExist, .notExist⟩

/-- A tree whose device `sda` has an indeterminate stat outcome on its `md`
marker (e.g. a permission error), with a readable size file. -/
def fsMarkerErr : Sysfs := fun n =>
  if n = "sda" then ⟨.ok, some "2\n", .err, .notExist, .notExist⟩
  else ⟨.notExist, none, .notExist, .notExist, .notExist⟩

namespace Block

/-- Marker checks with a determinate outcome always let classification
complete. -/
theorem discoverDeviceType_isOk (sysfsPath : String) (e : Entry)
    (hmd : e.md ≠ .err) (hdm : e.dm ≠ .err) (hdev : e.device ≠ .err) :
    ∃ t, discoverDeviceType sysfsPath e = .ok t := by
  obtain ⟨st, sz, md, dm, dev⟩ := e
  cases md <;> cases dm <;> cases dev <;> simp_all [discoverDeviceType, exists_]

/-- Claim C1: classification is an ordered, first-match-wins total function
over any device whose metadata entry exists: if the `md` marker child exists
the category is RAID (even when a `device` marker also exists); else if the
`dm` marker exists the category is DeviceMapper; else if the `device` marker
exists the category is Disk; else the category is Unknown. -/
theorem discoverDeviceType_ordered_first_match (sysfsPath : String) (e : Entry)
    (hmd : e.md ≠ .err) (hdm : e.dm ≠ .err) (hdev : e.device ≠ .err) :
    discoverDeviceType sysfsPath e =
      .ok (if e.md = .ok then .TypeRAID
           else if e.dm = .ok then .TypeDeviceMapper
           else if e.device = .ok then .TypeDisk
           else .TypeUnknown) := by
  obtain ⟨st, sz, md, dm, dev⟩ := e
  cases md <;> cases dm <;> cases dev <;> simp_all [discoverDeviceType, exists_]

/-- Witness for C1 at a concrete entry carrying both the `md` and the
`device` marker: classification returns RAID, not Disk. -/
theorem discoverDeviceType_ordered_first_match_witness :
    discoverDeviceType "/sys/block/md0" ⟨.ok, none, .ok, .notExist, .ok⟩ =
      .ok .TypeRAID := by
  have h := discoverDeviceType_ordered_first_match "/sys/block/md0"
    ⟨.ok, none, .ok, .notExist, .ok⟩ (by decide) (by decide) (by decide)
  simpa using h

/-- Claim C6: a name with no metadata entry fails with `NotFoundError` and
with no other error kind, in both packages. -/
theorem NewDevice_missing_entry_notFound (fs : Sysfs) (p : String)
    (h : (fs (pathBase p)).stat = .notExist) :
    NewDevice fs p =
      .error (.notFound ("device " ++ ("/sys/block/" ++ pathBase p) ++ " does not exist"))
    ∧ Blockdevice.NewDisk fs p =
      .error (.notFound ("device " ++ ("/sys/block/" ++ pathBase p) ++ " does not exist")) := by
  constructor <;> simp [NewDevice, Blockdevice.NewDisk, h]

/-- Witness for C6: `sdz` has no entry in `fsEmpty`. -/
theorem NewDevice_missing_entry_notFound_witness :
    NewDevice fsEmpty "sdz" =
      .error (.notFound ("device " ++ ("/sys/block/" ++ pathBase "sdz") ++ " does not exist"))
    ∧ Blockdevice.NewDisk fsEmpty "sdz" =
      .error (.notFound ("device " ++ ("/sys/block/" ++ pathBase "sdz") ++ " does not exist")) :=
  NewDevice_missing_entry_notFound fsEmpty "sdz" (by decide)

/-- Claim C3: when a marker stat is reached and fails with an error other
than not-exist, the whole construction fails with an I/O error instead of
treating the marker as absent and classifying anyway. -/
theorem marker_stat_error_aborts (fs : Sysfs) (p : String) (content : String) (s : Nat)
    (hstat : (fs (pathBase p)).stat ≠ .notExist)
    (hsz : (fs (pathBase p)).sizeFile = some content)
    (hparse : ParseUint (trimNewlines content) = some s)
    (hmark : (fs (pathBase p)).md = .err
      ∨ ((fs (pathBase p)).md = .notExist ∧ (fs (pathBase p)).dm = .err)
      ∨ ((fs (pathBase p)).md = .notExist ∧ (fs (pathBase p)).dm = .notExist
          ∧ (fs (pathBase p)).device = .err)) :
    NewDevice fs p = .error (.wrap "failed to parse device size"
      (.ioError ("failed to discover device type for " ++ ("/sys/block/" ++ pathBase p)))) := by
  rcases hmark with h1 | ⟨h1, h2⟩ | ⟨h1, h2, h3⟩ <;>
    simp [NewDevice, discoverDeviceType, exists_, hstat, hsz, hparse, h1, *]

/-- Witness for C3: in `fsMarkerErr` the `md` stat of `sda` errors, so
construction fails even though the size file was fine. -/
theorem marker_stat_error_aborts_witness :
    NewDevice fsMarkerErr "sda" = .error (.wrap "failed to parse device size"
      (.ioError ("failed to discover device type for " ++ ("/sys/block/" ++ pathBase "sda")))) :=
  marker_stat_error_aborts fsMarkerErr "sda" "2\n" 2 (by decide) (by decide)
    (by decide) (Or.inl (by decide))

/-- Claim C2 counterexample: the sector count 36028797018963968 = 2^55 parses
as a valid non-negative 64-bit decimal integer, yet the constructed device
has `Size = 0` because the Go `uint64` multiplication by 512 wraps; the
claimed exact product is nonzero. -/
theorem NewDevice_size_overflow_cex :
    NewDevice fsOverflow "sda" = .ok ⟨"sda", 0, .TypeDisk⟩
    ∧ (0 : Nat) ≠ 36028797018963968 * 512 :=
  ⟨by decide, by decide⟩

/-- Claim C2 (amended): for every sector count `s` that parses as a valid
non-negative 64-bit decimal integer, construction succeeds and the size is
`s * 512` reduced modulo 2^64 — exact whenever `s * 512 < 2^64`, so `s = 0`
gives size 0 — and the size is always a multiple of 512. -/
theorem NewDevice_size (fs : Sysfs) (p : String) (content : String) (s : Nat)
    (hstat : (fs (pathBase p)).stat = .ok)
    (hsz : (fs (pathBase p)).sizeFile = some content)
    (hparse : ParseUint (trimNewlines content) = some s)
    (hmd : (fs (pathBase p)).md ≠ .err) (hdm : (fs (pathBase p)).dm ≠ .err)
    (hdev : (fs (pathBase p)).device ≠ .err) :
    (∃ d, NewDevice fs p = .ok d ∧ d.Size = s * 512 % 2 ^ 64)
    ∧ (∃ dk, Blockdevice.NewDisk fs p = .ok dk ∧ dk.Size = s * 512 % 2 ^ 64)
    ∧ 512 ∣ s * 512 % 2 ^ 64
    ∧ (s * 512 < 2 ^ 64 → s * 512 % 2 ^ 64 = s * 512) := by
  obtain ⟨t, ht⟩ := discoverDeviceType_isOk ("/sys/block/" ++ pathBase p)
    (fs (pathBase p)) hmd hdm hdev
  refine ⟨⟨⟨pathBase p, s * 512 % 2 ^ 64, t⟩, ?_, rfl⟩,
      ⟨⟨pathBase p, s * 512 % 2 ^ 64⟩, ?_, rfl⟩, ?_, fun h => Nat.mod_eq_of_lt h⟩
  · simp [NewDevice, hstat, hsz, hparse, ht]
  · simp [Blockdevice.NewDisk, hstat, hsz, hparse]
  · exact (Nat.dvd_mod_iff ⟨2 ^ 55, by norm_num⟩).mpr ⟨s, by ring⟩

/-- Witness for C2 (amended) at the zero-sector device of `fsZero`:
`s = 0` gives size 0 without error. -/
theorem NewDevice_size_witness :
    (∃ d, NewDevice fsZero "sda" = .ok d ∧ d.Size = 0 * 512 % 2 ^ 64)
    ∧ (∃ dk, Blockdevice.NewDisk fsZero "sda" = .ok dk ∧ dk.Size = 0 * 512 % 2 ^ 64)
    ∧ 512 ∣ 0 * 512 % 2 ^ 64
    ∧ (0 * 512 < 2 ^ 64 → 0 * 512 % 2 ^ 64 = 0 * 512) :=
  NewDevice_size fsZero "sda" "0\n" 0 (by decide) (by decide) (by decide)
    (by decide) (by decide) (by decide)

/-- If every path constructs, the collection is the input-order map of the
constructions (duplicates included). -/
theorem NewDevicesFromPaths_all_ok (fs : Sysfs) (f : String → Device) :
    ∀ paths : List String, (∀ p ∈ paths, NewDevice fs p = .ok (f p)) →
      NewDevicesFromPaths fs paths = .ok (paths.map f)
  | [], _ => rfl
  | p :: ps, h => by
    have h1 := h p (List.mem_cons_self p ps)
    have h2 := NewDevicesFromPaths_all_ok fs f ps
      (fun q hq => h q (List.mem_cons_of_mem p hq))
    simp [NewDevicesFromPaths, h1, h2]

/-- The first failing construction aborts the whole call with that error
wrapped. -/
theorem NewDevicesFromPaths_first_error (fs : Sysfs) (f : String → Device) :
    ∀ pre : List String, (∀ q ∈ pre, NewDevice fs q = .ok (f q)) →
      ∀ p post e, NewDevice fs p = .error e →
      NewDevicesFromPaths fs (pre ++ p :: post) =
        .error (.wrap "failed to create disk" e)
  | [], _, p, post, e, hp => by simp [NewDevicesFromPaths, hp]
  | q :: pre, h, p, post, e, hp => by
    have h1 := h q (List.mem_cons_self q pre)
    have h2 := NewDevicesFromPaths_first_error fs f pre
      (fun r hr => h r (List.mem_cons_of_mem q hr)) p post e hp
    simp [NewDevicesFromPaths, h1, h2]

/-- `NewDiskSliceFromPaths` analogue of `NewDevicesFromPaths_all_ok`. -/
theorem NewDiskSliceFromPaths_all_ok (fs : Sysfs) (g : String → Blockdevice.Disk) :
    ∀ paths : List String, (∀ p ∈ paths, Blockdevice.NewDisk fs p = .ok (g p)) →
      Blockdevice.NewDiskSliceFromPaths fs paths = .ok (paths.map g)
  | [], _ => rfl
  | p :: ps, h => by
    have h1 := h p (List.mem_cons_self p ps)
    have h2 := NewDiskSliceFromPaths_all_ok fs g ps
      (fun q hq => h q (List.mem_cons_of_mem p hq))
    simp [Blockdevice.NewDiskSliceFromPaths, h1, h2]

/-- `NewDiskSliceFromPaths` analogue of `NewDevicesFromPaths_first_error`. -/
theorem NewDiskSliceFromPaths_first_error (fs : Sysfs) (g : String → Blockdevice.Disk) :
    ∀ pre : List String, (∀ q ∈ pre, Blockdevice.NewDisk fs q = .ok (g q)) →
      ∀ p post e, Blockdevice.NewDisk fs p = .error e →
      Blockdevice.NewDiskSliceFromPaths fs (pre ++ p :: post) =
        .error (.wrap "failed to create disk" e)
  | [], _, p, post, e, hp => by simp [Blockdevice.NewDiskSliceFromPaths, hp]
  | q :: pre, h, p, post, e, hp => by
    have h1 := h q (List.mem_cons_self q pre)
    have h2 := NewDiskSliceFromPaths_first_error fs g pre
      (fun r hr => h r (List.mem_cons_of_mem q hr)) p post e hp
    simp [Blockdevice.NewDiskSliceFromPaths, h1, h2]

/-- Claim C5: discovery from names is all-or-nothing in both packages: if
every construction succeeds the collection holds one device per input name in
input order (duplicates produce duplicates); if any construction fails —
after any run of successes — the entire call returns that error wrapped with
context and no partial collection. -/
theorem NewDevicesFromPaths_all_or_nothing (fs : Sysfs) (f : String → Device)
    (g : String → Blockdevice.Disk) :
    (∀ paths : List String, (∀ p ∈ paths, NewDevice fs p = .ok (f p)) →
       NewDevicesFromPaths fs paths = .ok (paths.map f))
    ∧ (∀ pre : List String, (∀ q ∈ pre, NewDevice fs q = .ok (f q)) →
       ∀ p post e, NewDevice fs p = .error e →
       NewDevicesFromPaths fs (pre ++ p :: post) =
         .error (.wrap "failed to create disk" e))
    ∧ (∀ paths : List String, (∀ p ∈ paths, Blockdevice.NewDisk fs p = .ok (g p)) →
       Blockdevice.NewDiskSliceFromPaths fs paths = .ok (paths.map g))
    ∧ (∀ pre : List String, (∀ q ∈ pre, Blockdevice.NewDisk fs q = .ok (g q)) →
       ∀ p post e, Blockdevice.NewDisk fs p = .error e →
       Blockdevice.NewDiskSliceFromPaths fs (pre ++ p :: post) =
         .error (.wrap "failed to create disk" e)) :=
  ⟨NewDevicesFromPaths_all_ok fs f, NewDevicesFromPaths_first_error fs f,
   NewDiskSliceFromPaths_all_ok fs g, NewDiskSliceFromPaths_first_error fs g⟩

/-- Witness for C5 on `fsDisk`: a duplicated valid name yields duplicate
entries, and one bad name among valid ones fails the entire call. -/
theorem NewDevicesFromPaths_all_or_nothing_witness :
    NewDevicesFromPaths fsDisk ["sda", "sda"] =
      .ok [⟨"sda", 1024, .TypeDisk⟩, ⟨"sda", 1024, .TypeDisk⟩]
    ∧ NewDevicesFromPaths fsDisk (["sda"] ++ "bad" :: ["sda"]) =
      .error (.wrap "failed to create disk"
        (.notFound ("device " ++ ("/sys/block/" ++ pathBase "bad") ++ " does not exist"))) := by
  have hok : ∀ p ∈ ["sda", "sda"], NewDevice fsDisk p =
      .ok ((fun _ => (⟨"sda", 1024, .TypeDisk⟩ : Device)) p) := by
    intro p hp
    rcases List.mem_cons.mp hp with rfl | hp2
    · decide
    · rcases List.mem_cons.mp hp2 with rfl | hp3
      · decide
      · cases hp3
  have hpre : ∀ q ∈ ["sda"], NewDevice fsDisk q =
      .ok ((fun _ => (⟨"sda", 1024, .TypeDisk⟩ : Device)) q) := by
    intro q hq
    rcases List.mem_cons.mp hq with rfl | hq2
    · decide
    · cases hq2
  refine ⟨?_, ?_⟩
  · have h := (NewDevicesFromPaths_all_or_nothing fsDisk
      (fun _ => ⟨"sda", 1024, .TypeDisk⟩) (fun _ => ⟨"sda", 1024⟩)).1 ["sda", "sda"] hok
    simpa using h
  · exact (NewDevicesFromPaths_all_or_nothing fsDisk
      (fun _ => ⟨"sda", 1024, .TypeDisk⟩) (fun _ => ⟨"sda", 1024⟩)).2.1 ["sda"] hpre
      "bad" ["sda"] _ (by decide)

end Block

/-- Dropping while a predicate holds does nothing when every element fails
the predicate. -/
theorem dropWhile_of_all_false {p : Char → Bool} :
    ∀ l : List Char, (∀ c ∈ l, p c = false) → l.dropWhile p = l
  | [], _ => rfl
  | a :: t, h => by simp [List.dropWhile_cons, h a (List.mem_cons_self a t)]

/-- Dropping while a predicate holds does nothing when the list starts with a
non-empty block of elements failing the predicate. -/
theorem dropWhile_append_of_head {p : Char → Bool} (l r : List Char)
    (hne : l ≠ []) (h : ∀ c ∈ l, p c = false) :
    (l ++ r).dropWhile p = l ++ r := by
  cases l with
  | nil => exact absurd rfl hne
  | cons a t => simp [List.dropWhile_cons, h a (List.mem_cons_self a t)]

/-- Taking while a predicate holds keeps everything when every element
satisfies it. -/
theorem takeWhile_of_all {p : Char → Bool} :
    ∀ l : List Char, (∀ c ∈ l, p c = true) → l.takeWhile p = l
  | [], _ => rfl
  | a :: t, h => by
    simp [List.takeWhile_cons, h a (List.mem_cons_self a t),
      takeWhile_of_all t (fun c hc => h c (List.mem_cons_of_mem a hc))]

/-- Taking while a predicate holds stops exactly at the first failing
element. -/
theorem takeWhile_append_of_all {p : Char → Bool} :
    ∀ (l : List Char) (b : Char) (r : List Char),
      (∀ c ∈ l, p c = true) → p b = false →
      (l ++ b :: r).takeWhile p = l
  | [], b, r, _, hb => by simp [List.takeWhile_cons, hb]
  | a :: t, b, r, h, hb => by
    simp [List.takeWhile_cons, h a (List.mem_cons_self a t),
      takeWhile_append_of_all t b r (fun c hc => h c (List.mem_cons_of_mem a hc)) hb]

/-- A bare name — non-empty, without any slash — is its own base name. -/
theorem pathBase_bare (name : String) (hne : name ≠ "")
    (hbare : ∀ c ∈ name.toList, c ≠ '/') : pathBase name = name := by
  obtain ⟨l⟩ := name
  have hl : l ≠ [] := fun h => hne (by rw [h])
  have hrev : ∀ c ∈ l.reverse, (c == '/') = false := fun c hc =>
    beq_eq_false_iff_ne.mpr (hbare c (List.mem_reverse.mp hc))
  have hrevne : l.reverse ≠ [] := by simpa using hl
  unfold pathBase
  rw [if_neg hne]
  dsimp only
  rw [show (String.mk l).toList = l from rfl]
  rw [dropWhile_of_all_false _ hrev,
    takeWhile_of_all _ (fun c hc => by simp [bne, hrev c hc]),
    if_neg hrevne, List.reverse_reverse]

/-- Any slash-separated leading part is discarded by `path.Base` when the
final component is a bare name. -/
theorem pathBase_append (pre name : String) (hne : name ≠ "")
    (hbare : ∀ c ∈ name.toList, c ≠ '/') :
    pathBase (pre ++ "/" ++ name) = name := by
  obtain ⟨lp⟩ := pre
  obtain ⟨l⟩ := name
  have hl : l ≠ [] := fun h => hne (by rw [h])
  have happ : (String.mk lp ++ "/" ++ String.mk l) = String.mk (lp ++ '/' :: l) := by
    apply String.ext
    simp
  have hrev : ∀ c ∈ l.reverse, (c == '/') = false := fun c hc =>
    beq_eq_false_iff_ne.mpr (hbare c (List.mem_reverse.mp hc))
  have hrevne : l.reverse ≠ [] := by simpa using hl
  rw [happ]
  have hne2 : String.mk (lp ++ '/' :: l) ≠ "" := by
    simp [String.ext_iff]
  unfold pathBase
  rw [if_neg hne2]
  dsimp only
  rw [show (String.mk (lp ++ '/' :: l)).toList = lp ++ '/' :: l from rfl]
  have hsplit : (lp ++ '/' :: l).reverse = l.reverse ++ '/' :: lp.reverse := by
    simp
  rw [hsplit, dropWhile_append_of_head _ _ hrevne hrev,
    takeWhile_append_of_all _ _ _ (fun c hc => by simp [bne, hrev c hc]) (by decide),
    if_neg hrevne, List.reverse_reverse]

namespace Block

/-- A successfully constructed device carries the base name of the path it
was constructed from. -/
theorem NewDevice_name (fs : Sysfs) (p : String) (d : Device)
    (h : NewDevice fs p = .ok d) : d.Name = pathBase p := by
  simp only [NewDevice] at h
  split at h
  · cases h
  · split at h
    · cases h
    · split at h
      · cases h
      · split at h
        · cases h
        · cases h
          rfl

/-- Claim C8: construction depends only on the final path component: for any
leading part, `Construct(pre ++ "/" ++ name)` and `Construct(name)` agree in
both packages, and a successful construction carries the bare base name. -/
theorem NewDevice_pathBase_only (fs : Sysfs) (pre name : String)
    (hne : name ≠ "") (hbare : ∀ c ∈ name.toList, c ≠ '/') :
    NewDevice fs (pre ++ "/" ++ name) = NewDevice fs name
    ∧ Blockdevice.NewDisk fs (pre ++ "/" ++ name) = Blockdevice.NewDisk fs name
    ∧ (∀ d, NewDevice fs name = .ok d → d.Name = name) := by
  have h1 := pathBase_append pre name hne hbare
  have h2 := pathBase_bare name hne hbare
  refine ⟨?_, ?_, fun d hd => (NewDevice_name fs name d hd).trans h2⟩
  · simp only [NewDevice, h1, h2]
  · simp only [Blockdevice.NewDisk, h1, h2]

/-- Witness for C8: `/dev/sda` and `sda` yield the same device, named
`sda`. -/
theorem NewDevice_pathBase_only_witness :
    NewDevice fsDisk ("/dev" ++ "/" ++ "sda") = NewDevice fsDisk "sda"
    ∧ Blockdevice.NewDisk fsDisk ("/dev" ++ "/" ++ "sda") = Blockdevice.NewDisk fsDisk "sda"
    ∧ (∀ d, NewDevice fsDisk "sda" = .ok d → d.Name = "sda") :=
  NewDevice_pathBase_only fsDisk "/dev" "sda" (by decide) (by decide)

end Block

namespace Blockdevice

/-- Stability of the size-ordering view: the subsequence of any fixed size
is untouched by the sort. -/
theorem sortBySize_filter_eq (l : List Disk) (s : Nat) :
    (sortBySize l).filter (fun d => d.Size == s) = l.filter (fun d => d.Size == s) := by
  have hpair : (l.filter (fun d => d.Size == s)).Pairwise (fun a b => ¬ DiskSlice.Less b a) := by
    apply List.pairwise_of_forall_mem_list
    intro a ha b hb
    have ha2 : a.Size = s := by simpa using List.of_mem_filter ha
    have hb2 : b.Size = s := by simpa using List.of_mem_filter hb
    simp [DiskSlice.Less, ha2, hb2]
  have hsub : List.Sublist (l.filter (fun d => d.Size == s)) (sortBySize l) :=
    List.sublist_insertionSort hpair (List.filter_sublist l)
  have hidem : (l.filter (fun d => d.Size == s)).filter (fun d => d.Size == s) =
      l.filter (fun d => d.Size == s) := by
    simp [List.filter_filter]
  have hsub2 : List.Sublist (l.filter (fun d => d.Size == s))
      ((sortBySize l).filter (fun d => d.Size == s)) := by
    have h3 := hsub.filter (fun d => d.Size == s)
    rwa [hidem] at h3
  have hperm : List.Perm ((sortBySize l).filter (fun d => d.Size == s))
      (l.filter (fun d => d.Size == s)) :=
    (List.perm_insertionSort _ l).filter _
  exact (hsub2.eq_of_length hperm.length_eq.symm).symm

/-- Claim C7: the ascending-by-size view is stable — devices with equal size
retain their input order (the filter at any fixed size is unchanged), and the
sizes [100, 50, 100, 10] sort to [10, 50, 100, 100] with the two size-100
devices keeping their original relative order. -/
theorem sortBySize_stable :
    (∀ (l : List Disk) (s : Nat),
      (sortBySize l).filter (fun d => d.Size == s) = l.filter (fun d => d.Size == s))
    ∧ sortBySize [⟨"a", 100⟩, ⟨"b", 50⟩, ⟨"c", 100⟩, ⟨"d", 10⟩] =
        [⟨"d", 10⟩, ⟨"b", 50⟩, ⟨"a", 100⟩, ⟨"c", 100⟩] :=
  ⟨sortBySize_filter_eq, by decide⟩

/-- Claim C4 (evidence for the code bug): on `blkid` output containing a
non-empty line with no `'='`, the parsing loop evaluates `kv[1]` on a
one-element slice and panics (modelled by `none`) — it does not return a
`ParseError` and does not skip the line, whether or not well-formed lines
surround it. -/
theorem GetAttributes_no_eq_line_panics :
    GetAttributesFromOutput "garbage\n" = none
    ∧ GetAttributesFromOutput "UUID=u\ngarbage\nTYPE=ext4\n" = none :=
  ⟨by decide, by decide⟩

end Blockdevice

namespace Blockdevice

/-- Peeling one line off `lastValueFrom` feeds it through `lvStep`. -/
theorem lastValueFrom_cons (key : String) (init : Option String) (l : String)
    (ls : List String) :
    lastValueFrom key init (l :: ls) = lastValueFrom key (lvStep key init l) ls := rfl

/-- The initial accumulator only matters when no later line carries the
key. -/
theorem lastValueFrom_match (key : String) :
    ∀ (ls : List String) (init : Option String),
      lastValueFrom key init ls =
        match lastValueFrom key none ls with
        | some v => some v
        | none => init
  | [], _ => rfl
  | l :: ls, init => by
    rw [lastValueFrom_cons, lastValueFrom_cons,
      lastValueFrom_match key ls (lvStep key init l),
      lastValueFrom_match key ls (lvStep key none l)]
    cases h : lastValueFrom key none ls with
    | some v => rfl
    | none =>
      simp only [lvStep]
      cases hsp : splitFirstEq l.toList with
      | none => rfl
      | some kv =>
        obtain ⟨k, v⟩ := kv
        by_cases hk : String.mk k = key <;> simp [hk]

/-- Any line containing a `'='` splits. -/
theorem splitFirstEq_isSome_of_mem :
    ∀ l : List Char, '=' ∈ l → (splitFirstEq l).isSome = true
  | c :: rest, h => by
    by_cases hc : c = '='
    · simp [splitFirstEq, hc]
    · have hr : '=' ∈ rest := by
        rcases List.mem_cons.mp h with h1 | h1
        · exact absurd h1.symm hc
        · exact h1
      have ih := splitFirstEq_isSome_of_mem rest hr
      simp only [splitFirstEq, if_neg hc]
      cases hsp : splitFirstEq rest with
      | none => rw [hsp] at ih; simp at ih
      | some kv => obtain ⟨k, v⟩ := kv; simp

/-- How `specField` sees one more line at the front. -/
theorem specField_cons (key dflt l : String) (ls : List String) :
    specField key dflt (l :: ls) =
      match splitFirstEq l.toList with
      | some (k, v) =>
        if String.mk k = key then specField key (String.mk v) ls
        else specField key dflt ls
      | none => specField key dflt ls := by
  simp only [specField, lastValueOf, lastValueFrom_cons]
  cases hsp : splitFirstEq l.toList with
  | none => simp only [lvStep, hsp]
  | some kv =>
    obtain ⟨k, v⟩ := kv
    simp only [lvStep, hsp]
    by_cases hk : String.mk k = key
    · simp only [if_pos hk]
      rw [lastValueFrom_match key ls (some (String.mk v))]
      cases lastValueFrom key none ls <;> rfl
    · simp only [if_neg hk]

/-- The parsing loop on well-formed lines: it succeeds, and each recognized
field carries the last value for its key, keeping the start record's value
when the key never occurs. -/
theorem foldAttrs_eq :
    ∀ (ls : List String) (a : Attributes), WFLines ls →
      foldAttrs a ls = some
        ⟨specField "UUID" a.UUID ls, specField "TYPE" a.Typ ls,
         specField "LABEL" a.Label ls⟩
  | [], a, _ => by simp [foldAttrs, specField, lastValueOf, lastValueFrom]
  | l :: ls, a, h => by
    have hwf : WFLines ls := fun x hx => h x (List.mem_cons_of_mem l hx)
    by_cases hemp : l = ""
    · subst hemp
      show foldAttrs a ("" :: ls) = _
      rw [show foldAttrs a ("" :: ls) = foldAttrs a ls from rfl,
        foldAttrs_eq ls a hwf]
      rfl
    · have hl : '=' ∈ l.toList := by
        rcases h l (List.mem_cons_self l ls) with h1 | h1
        · exact absurd h1 hemp
        · exact h1
      have hsome := splitFirstEq_isSome_of_mem l.toList hl
      obtain ⟨⟨k, v⟩, hkv⟩ := Option.isSome_iff_exists.mp hsome
      show foldAttrs a (l :: ls) = _
      rw [show foldAttrs a (l :: ls) =
          match processLine a l with
          | none => none
          | some a2 => foldAttrs a2 ls from rfl]
      simp only [processLine, if_neg hemp, hkv]
      rw [foldAttrs_eq ls _ hwf]
      simp only [specField_cons, hkv]
      by_cases h1 : String.mk k = "UUID"
      · simp [h1]
      · by_cases h2 : String.mk k = "LABEL"
        · simp [h1, h2]
        · by_cases h3 : String.mk k = "TYPE"
          · simp [h1, h2, h3]
          · simp [h1, h2, h3]

end Blockdevice

namespace Blockdevice

/-- Claim C9 counterexample: output where `LABEL` is present but empty and
output where `LABEL` is absent produce identical `Attributes` records, so an
absent key is NOT left distinguishable from present-but-empty — the Go string
fields default to `""`. -/
theorem GetAttributes_label_indistinguishable_cex :
    GetAttributesFromOutput "UUID=abc-123\nTYPE=ext4\nLABEL=\n" =
      GetAttributesFromOutput "UUID=abc-123\nTYPE=ext4\n"
    ∧ GetAttributesFromOutput "UUID=abc-123\nTYPE=ext4\n" =
      some ⟨"abc-123", "ext4", ""⟩ :=
  ⟨by decide, by decide⟩

/-- Claim C9 (amended): on well-formed output the lookup populates each
recognized field (`UUID`, `TYPE`, `LABEL`) with the value of the last line
bearing its key, ignores unrecognized keys, and leaves a field as the empty
string when its key is absent — which is not distinguishable from a
present-but-empty value; the example output `UUID=abc-123\nTYPE=ext4\n`
yields uuid `abc-123`, type `ext4` and empty label. -/
theorem GetAttributes_fields (ls : List String) (h : WFLines ls) :
    GetAttributesLines ls =
      some ⟨specField "UUID" "" ls, specField "TYPE" "" ls, specField "LABEL" "" ls⟩
    ∧ GetAttributesFromOutput "UUID=abc-123\nTYPE=ext4\n" =
      some ⟨"abc-123", "ext4", ""⟩ :=
  ⟨foldAttrs_eq ls ⟨"", "", ""⟩ h, by decide⟩

/-- Witness for C9 (amended) on lines with an unrecognized key `PARTUUID`
and no `TYPE`/`LABEL` keys. -/
theorem GetAttributes_fields_witness :
    GetAttributesLines ["PARTUUID=p", "UUID=u", ""] = some ⟨"u", "", ""⟩
    ∧ GetAttributesFromOutput "UUID=abc-123\nTYPE=ext4\n" =
      some ⟨"abc-123", "ext4", ""⟩ := by
  have h := GetAttributes_fields ["PARTUUID=p", "UUID=u", ""] (by decide)
  refine ⟨?_, h.2⟩
  rw [h.1]
  decide

/-- A block of lines none of which carries the key leaves the accumulator
unchanged. -/
theorem lastValueFrom_no_key (key : String) :
    ∀ (ls : List String) (init : Option String),
      (∀ l ∈ ls, ∀ kv, splitFirstEq l.toList = some kv → String.mk kv.1 ≠ key) →
      lastValueFrom key init ls = init
  | [], _, _ => rfl
  | l :: ls, init, h => by
    rw [lastValueFrom_cons]
    have hstep : lvStep key init l = init := by
      simp only [lvStep]
      cases hsp : splitFirstEq l.toList with
      | none => rfl
      | some kv => simp [h l (List.mem_cons_self l ls) kv hsp]
    rw [hstep,
      lastValueFrom_no_key key ls init (fun x hx => h x (List.mem_cons_of_mem l hx))]

/-- A left fold over an append runs the first block first. -/
theorem lastValueFrom_append (key : String) (init : Option String)
    (l1 l2 : List String) :
    lastValueFrom key init (l1 ++ l2) = lastValueFrom key (lastValueFrom key init l1) l2 := by
  simp [lastValueFrom, List.foldl_append]

/-- Splitting a line assembled from a key without `'='` and a value cuts
exactly at the assembling `'='`. -/
theorem splitFirstEq_key :
    ∀ k : List Char, '=' ∉ k → ∀ v : List Char,
      splitFirstEq (k ++ '=' :: v) = some (k, v)
  | [], _, v => by simp [splitFirstEq]
  | c :: t, h, v => by
    have hc : ¬ c = '=' := by
      intro hh
      apply h
      rw [← hh]
      exact List.mem_cons_self c t
    have ih := splitFirstEq_key t (fun hm => h (List.mem_cons_of_mem c hm)) v
    simp [splitFirstEq, hc, ih]

/-- Claim C10: when the output contains several lines with the same
recognized key, the parsed record carries the value of the last such line —
later `KEY=VALUE` lines overwrite earlier ones. -/
theorem GetAttributes_last_wins (pre mid post : List String) (k v1 v2 : String)
    (hk : k = "UUID" ∨ k = "TYPE" ∨ k = "LABEL")
    (hpre : WFLines pre) (hmid : WFLines mid) (hpost : WFLines post)
    (hpostk : ∀ l ∈ post, ∀ kv, splitFirstEq l.toList = some kv → String.mk kv.1 ≠ k) :
    ∃ a, GetAttributesLines (pre ++ (k ++ "=" ++ v1) :: mid ++ (k ++ "=" ++ v2) :: post) =
        some a
      ∧ (k = "UUID" → a.UUID = v2) ∧ (k = "TYPE" → a.Typ = v2)
      ∧ (k = "LABEL" → a.Label = v2) := by
  have hkeq : '=' ∉ k.toList := by
    rcases hk with rfl | rfl | rfl <;> decide
  have htl : ∀ v : String, (k ++ "=" ++ v).toList = k.toList ++ '=' :: v.toList := by
    intro v
    show (k ++ "=" ++ v).data = k.data ++ '=' :: v.data
    simp
  have hwf : WFLines (pre ++ (k ++ "=" ++ v1) :: mid ++ (k ++ "=" ++ v2) :: post) := by
    intro l hl
    rcases List.mem_append.mp hl with h1 | h1
    · rcases List.mem_append.mp h1 with h2 | h2
      · exact hpre l h2
      · rcases List.mem_cons.mp h2 with rfl | h3
        · right
          rw [htl v1]
          simp
        · exact hmid l h3
    · rcases List.mem_cons.mp h1 with rfl | h2
      · right
        rw [htl v2]
        simp
      · exact hpost l h2
  have hstep : ∀ acc : Option String, lvStep k acc (k ++ "=" ++ v2) = some v2 := by
    intro acc
    simp only [lvStep, htl v2, splitFirstEq_key k.toList hkeq v2.toList]
    have hek : ({ data := k.toList } : String) = k := rfl
    rw [if_pos hek]
    rfl
  have hlast : lastValueOf k (pre ++ (k ++ "=" ++ v1) :: mid ++ (k ++ "=" ++ v2) :: post) =
      some v2 := by
    show lastValueFrom k none (pre ++ (k ++ "=" ++ v1) :: mid ++ (k ++ "=" ++ v2) :: post)
      = some v2
    rw [lastValueFrom_append, lastValueFrom_cons, hstep]
    exact lastValueFrom_no_key k post (some v2) hpostk
  refine ⟨_, foldAttrs_eq _ ⟨"", "", ""⟩ hwf, ?_, ?_, ?_⟩ <;>
    · intro hkk
      subst hkk
      simp only [specField]
      rw [hlast]

/-- Witness for C10: two `UUID` lines around a `TYPE` line; the record keeps
the second UUID value. -/
theorem GetAttributes_last_wins_witness :
    ∃ a, GetAttributesLines
        (["TYPE=ext4"] ++ ("UUID" ++ "=" ++ "a") :: [] ++ ("UUID" ++ "=" ++ "b") :: []) =
        some a
      ∧ ("UUID" = "UUID" → a.UUID = "b") ∧ ("UUID" = "TYPE" → a.Typ = "b")
      ∧ ("UUID" = "LABEL" → a.Label = "b") :=
  GetAttributes_last_wins ["TYPE=ext4"] [] [] "UUID" "a" "b" (Or.inl rfl)
    (by decide) (by decide) (by decide)
    (fun l hl => absurd hl (List.not_mem_nil l))

end Blockdevice
